import Mathlib

/-!
Verification of the nfl-matchup-live core pipeline.

The definitions below are a shallow embedding of the two source files:
`data_providers.py` (aggregation of play-by-play rows into per-team unit
metric tables) and `streamlit_app.py` (normalization, unit scoring,
matchup edges, trench-to-finish adjustment, weighted roll-up and verdict
classification).  Python floats are modelled by `ℚ`; a pandas `NaN`
(absent value) is modelled by `none : Option ℚ`.  A pandas DataFrame is
modelled by a Lean list of row structures.
-/

namespace NFL

/-- One play-by-play record, restricted to the fields the core pipeline
reads.  `epa`, `air_yards` and `sack` may be absent (NaN). -/
structure PlayRecord where
  season : Int
  week : Int
  season_type : String
  posteam : String
  defteam : String
  play_type : String
  epa : Option ℚ
  yards_gained : ℚ
  air_yards : Option ℚ
  sack : Option ℚ
deriving Repr, DecidableEq

/-- The aggregation filter of `compute_team_unit_metrics`:
`(season == season) & (week <= week) & (season_type == "REG")` followed by
`play_type.isin(["pass","run"]) & epa.notna()`. -/
def keepPlay (season week : Int) (p : PlayRecord) : Bool :=
  p.season == season && p.week ≤ week && p.season_type == "REG"
    && (p.play_type == "pass" || p.play_type == "run") && p.epa.isSome

/-- `df = pbp[filter]`, the play log after the aggregation filter. -/
def filteredPlays (pbp : List PlayRecord) (season week : Int) : List PlayRecord :=
  pbp.filter (keepPlay season week)

/-- `df["success"] = (df["epa"] > 0).astype(int)`.  On filtered rows `epa`
is always present; an absent `epa` reads as 0 here, as `NaN > 0` is false. -/
def success (p : PlayRecord) : Int :=
  if 0 < p.epa.getD 0 then 1 else 0

/-- The pass branch of the explosive test: `air >= 20`, false when
`air_yards` is absent (NaN comparisons are false). -/
def airGe20 (p : PlayRecord) : Bool :=
  match p.air_yards with
  | some a => 20 ≤ a
  | none => false

/-- `df["explosive"] = np.where((pass & air>=20), 1, np.where((run & yards_gained>=12), 1, 0))`. -/
def explosive (p : PlayRecord) : Int :=
  if p.play_type == "pass" && airGe20 p then 1
  else if p.play_type == "run" && decide (12 ≤ p.yards_gained) then 1
  else 0

/-- Truncation toward zero, the behaviour of numpy `astype(int)` on floats. -/
def ratTrunc (q : ℚ) : Int :=
  if q < 0 then ⌈q⌉ else ⌊q⌋

/-- `pass_df["sack"].fillna(0).astype(int)` applied to one row. -/
def sackVal (p : PlayRecord) : Int :=
  ratTrunc (p.sack.getD 0)

/-- `run_df["stuffed"] = (run_df["yards_gained"] <= 0).astype(int)`. -/
def stuffed (p : PlayRecord) : Int :=
  if p.yards_gained ≤ 0 then 1 else 0

/-- Mean of a rational column, as pandas `.agg(..., "mean")` computes it on
a (nonempty) group. -/
def ratMean (l : List ℚ) : ℚ :=
  l.sum / l.length

/-- The distinct group keys of a pandas `groupby`, one per team appearing
in the column (order immaterial to our claims). -/
def groupKeys (l : List String) : List String :=
  l.dedup

/-- `df.groupby("posteam")` group keys. -/
def offTeams (df : List PlayRecord) : List String :=
  groupKeys (df.map (fun p => p.posteam))

/-- `df.groupby("defteam")` group keys. -/
def defTeams (df : List PlayRecord) : List String :=
  groupKeys (df.map (fun p => p.defteam))

/-- The rows of team `t`'s offense group. -/
def teamOffPlays (df : List PlayRecord) (t : String) : List PlayRecord :=
  df.filter (fun p => p.posteam == t)

/-- The rows of team `t`'s defense group. -/
def teamDefPlays (df : List PlayRecord) (t : String) : List PlayRecord :=
  df.filter (fun p => p.defteam == t)

/-- `pass_df = df[df["play_type"] == "pass"]`. -/
def passPlays (df : List PlayRecord) : List PlayRecord :=
  df.filter (fun p => p.play_type == "pass")

/-- `run_df = df[df["play_type"] == "run"]`. -/
def runPlays (df : List PlayRecord) : List PlayRecord :=
  df.filter (fun p => p.play_type == "run")

/-- Group attempt count (`.agg(attempts=("play_type","count"))`). -/
def attempts (l : List PlayRecord) : Nat :=
  l.length

/-- Group sack sum (`.agg(sacks=("sack","sum"))` after `fillna(0).astype(int)`). -/
def sacks (l : List PlayRecord) : Int :=
  (l.map sackVal).sum

/-- Group stuffed-run sum (`.agg(stuffed=("stuffed","sum"))`). -/
def stuffs (l : List PlayRecord) : Int :=
  (l.map stuffed).sum

/-- `1.0 - sacks / attempts.clip(lower=1)` over one offense pass group. -/
def passBlockWinProxy (l : List PlayRecord) : ℚ :=
  1 - (sacks l : ℚ) / (max (attempts l) 1 : Nat)

/-- `1.0 - stuffed / runs.clip(lower=1)` over one offense run group. -/
def runBlockWinProxy (l : List PlayRecord) : ℚ :=
  1 - (stuffs l : ℚ) / (max (attempts l) 1 : Nat)

/-- `sacks / attempts.clip(lower=1)` over one defense pass group. -/
def pressureRateProxy (l : List PlayRecord) : ℚ :=
  (sacks l : ℚ) / (max (attempts l) 1 : Nat)

/-- `stuffs / runs.clip(lower=1)` over one defense run group. -/
def runStopWinProxy (l : List PlayRecord) : ℚ :=
  (stuffs l : ℚ) / (max (attempts l) 1 : Nat)

/-- One row of the `offense_units` table. -/
structure OffRow where
  team : String
  unit : String
  epa_per_play : Option ℚ
  success_rate : Option ℚ
  explosive_rate : Option ℚ
  pass_block_win : Option ℚ
  run_block_win : Option ℚ
deriving Repr, DecidableEq

/-- One row of the `defense_units` table. -/
structure DefRow where
  team : String
  unit : String
  epa_allowed : Option ℚ
  success_allowed : Option ℚ
  explosive_allowed : Option ℚ
  pressure_rate : Option ℚ
  run_stop_win : Option ℚ
  coverage_grade : Option ℚ
deriving Repr, DecidableEq

/-- `epa_per_play` of team `t`'s offense group. -/
def epaPerPlay (df : List PlayRecord) (t : String) : ℚ :=
  ratMean ((teamOffPlays df t).map (fun p => p.epa.getD 0))

/-- `success_rate` of team `t`'s offense group. -/
def successRate (df : List PlayRecord) (t : String) : ℚ :=
  ratMean ((teamOffPlays df t).map (fun p => (success p : ℚ)))

/-- `explosive_rate` of team `t`'s offense group. -/
def explosiveRate (df : List PlayRecord) (t : String) : ℚ :=
  ratMean ((teamOffPlays df t).map (fun p => (explosive p : ℚ)))

/-- Teams appearing in the `ol_pass` proxy table (pass plays grouped by `posteam`). -/
def olPassTeams (df : List PlayRecord) : List String :=
  offTeams (passPlays df)

/-- Teams appearing in the `ol_run` proxy table (run plays grouped by `posteam`). -/
def olRunTeams (df : List PlayRecord) : List String :=
  offTeams (runPlays df)

/-- Teams of the outer merge `ol = merge(ol_pass, ol_run, on="team", how="outer")`. -/
def olTeams (df : List PlayRecord) : List String :=
  (olPassTeams df ++ olRunTeams df).dedup

/-- The `pass_block_win_proxy` column of the merged `ol` table: NaN for a
team absent from the `ol_pass` side of the outer merge. -/
def teamPassBlock (df : List PlayRecord) (t : String) : Option ℚ :=
  if t ∈ olPassTeams df then some (passBlockWinProxy (teamOffPlays (passPlays df) t))
  else none

/-- The `run_block_win_proxy` column of the merged `ol` table: NaN for a
team absent from the `ol_run` side of the outer merge. -/
def teamRunBlock (df : List PlayRecord) (t : String) : Option ℚ :=
  if t ∈ olRunTeams df then some (runBlockWinProxy (teamOffPlays (runPlays df) t))
  else none

/-- One skill-position offense row (`QB`/`RB`/`WR`/`TE`): the team-wide
rate triple, block-win fields NaN. -/
def skillRow (t u : String) (e s x : ℚ) : OffRow :=
  ⟨t, u, some e, some s, some x, none, none⟩

/-- The `offense_units` rows: four skill rows per team of the `off` group
followed by one `OL` row per team of the merged `ol` table. -/
def offenseUnits (df : List PlayRecord) : List OffRow :=
  ((offTeams df).map (fun t =>
      [skillRow t "QB" (epaPerPlay df t) (successRate df t) (explosiveRate df t),
       skillRow t "RB" (epaPerPlay df t) (successRate df t) (explosiveRate df t),
       skillRow t "WR" (epaPerPlay df t) (successRate df t) (explosiveRate df t),
       skillRow t "TE" (epaPerPlay df t) (successRate df t) (explosiveRate df t)])).flatten
  ++ (olTeams df).map (fun t =>
      ⟨t, "OL", none, none, none, teamPassBlock df t, teamRunBlock df t⟩)

/-- `epa_allowed` of team `t`'s defense group. -/
def epaAllowed (df : List PlayRecord) (t : String) : ℚ :=
  ratMean ((teamDefPlays df t).map (fun p => p.epa.getD 0))

/-- `success_allowed` of team `t`'s defense group. -/
def successAllowed (df : List PlayRecord) (t : String) : ℚ :=
  ratMean ((teamDefPlays df t).map (fun p => (success p : ℚ)))

/-- `explosive_allowed` of team `t`'s defense group. -/
def explosiveAllowed (df : List PlayRecord) (t : String) : ℚ :=
  ratMean ((teamDefPlays df t).map (fun p => (explosive p : ℚ)))

/-- Teams of the `def_pass` group (pass plays grouped by `defteam`). -/
def defPassTeams (df : List PlayRecord) : List String :=
  defTeams (passPlays df)

/-- Teams of the `def_run` group (run plays grouped by `defteam`). -/
def defRunTeams (df : List PlayRecord) : List String :=
  defTeams (runPlays df)

/-- `pressure_rate_proxy` after the left merge onto the `deff` table: NaN
for a team with no pass play faced. -/
def teamPressure (df : List PlayRecord) (t : String) : Option ℚ :=
  if t ∈ defPassTeams df then some (pressureRateProxy (teamDefPlays (passPlays df) t))
  else none

/-- `run_stop_win_proxy` after the left merge onto the `deff` table: NaN
for a team with no run play faced. -/
def teamRunStop (df : List PlayRecord) (t : String) : Option ℚ :=
  if t ∈ defRunTeams df then some (runStopWinProxy (teamDefPlays (runPlays df) t))
  else none

/-- The `defense_units` rows: five unit rows per team of the `deff` group,
populated selectively per unit exactly as the source loop does
(`coverage_grade` is always NaN). -/
def defenseUnits (df : List PlayRecord) : List DefRow :=
  ((defTeams df).map (fun t =>
      [⟨t, "PassRush", none, none, none, teamPressure df t, none, none⟩,
       ⟨t, "RunDefense", none, none, some (explosiveAllowed df t), none, teamRunStop df t, none⟩,
       ⟨t, "CoverageDB", some (epaAllowed df t), some (successAllowed df t),
        some (explosiveAllowed df t), none, none, none⟩,
       ⟨t, "CoverageLB", some (epaAllowed df t), some (successAllowed df t),
        some (explosiveAllowed df t), none, none, none⟩,
       ⟨t, "DL", none, none, none, none, teamRunStop df t, none⟩])).flatten

/-- `compute_team_unit_metrics(pbp, season, week)`: filter, then build the
offense and defense unit tables. -/
def compute_team_unit_metrics (pbp : List PlayRecord) (season week : Int) :
    List OffRow × List DefRow :=
  (offenseUnits (filteredPlays pbp season week),
   defenseUnits (filteredPlays pbp season week))

/-- The column names an `offense_units` row dict carries. -/
def offenseColumnSet : List String :=
  ["team", "unit", "epa_per_play", "success_rate", "explosive_rate",
   "pass_block_win", "run_block_win"]

/-- The column names a `defense_units` row dict carries. -/
def defenseColumnSet : List String :=
  ["team", "unit", "epa_allowed", "success_allowed", "explosive_allowed",
   "pressure_rate", "run_stop_win", "coverage_grade"]

/-- The columns of `pd.DataFrame(rows)` built from a list of row dicts that
all share the key set `cols`: the union of the dicts' keys, which is empty
when the list is empty. -/
def tableColumns {α : Type} (rows : List α) (cols : List String) : List String :=
  if rows.isEmpty then [] else cols

/-- The non-absent entries of a column, in order (`s.dropna()`). -/
def presentVals (s : List (Option ℚ)) : List ℚ :=
  s.filterMap id

/-- `s.dropna().nunique()`: the number of distinct non-absent values. -/
def nunique (s : List (Option ℚ)) : Nat :=
  (presentVals s).dedup.length

/-- `normalize(series, invert)` from `streamlit_app.py`.  A column is a
positional list of optional values, one per table row.  If at most one
distinct non-absent value exists, every position becomes `0.5`; otherwise
present values are rescaled by the observed min/max (with the source's
redundant re-check that min and max exist and differ) and absent values
stay absent.  `invert` maps `x` to `1 - x` afterwards. -/
def normalize (s : List (Option ℚ)) (invert : Bool) : List (Option ℚ) :=
  let out :=
    if nunique s ≤ 1 then s.map (fun _ => some (1/2 : ℚ))
    else
      match (presentVals s).min?, (presentVals s).max? with
      | some mn, some mx =>
          if mx = mn then s.map (fun _ => some (1/2 : ℚ))
          else s.map (Option.map (fun x => (x - mn) / (mx - mn)))
      | _, _ => s.map (fun _ => some (1/2 : ℚ))
  if invert then out.map (Option.map (fun x => 1 - x)) else out

/-- `float(np.mean(vals)) if vals else np.nan` after dropping the absent
entries: the shared tail of both unit-score functions. -/
def meanOfPresent (vals : List (Option ℚ)) : Option ℚ :=
  let vs := vals.filterMap id
  if vs.isEmpty then none else some (vs.sum / vs.length)

/-- `offense_unit_score(r)`: `[pbw_n, rbw_n]` for unit `OL`, else
`[epa_n, succ_n, expl_n]`, then the mean of the non-absent entries. -/
def offense_unit_score (unit : String) (epa_n succ_n expl_n pbw_n rbw_n : Option ℚ) :
    Option ℚ :=
  meanOfPresent (if unit == "OL" then [pbw_n, rbw_n] else [epa_n, succ_n, expl_n])

/-- `defense_unit_score(r)`: the unit-specific source list (empty for any
other unit name), then the mean of the non-absent entries. -/
def defense_unit_score (unit : String)
    (epa_allowed_n succ_allowed_n expl_allowed_n pressure_n run_stop_win_n coverage_n :
      Option ℚ) : Option ℚ :=
  meanOfPresent
    (if unit == "PassRush" then [pressure_n]
     else if unit == "RunDefense" then [run_stop_win_n, expl_allowed_n, succ_allowed_n]
     else if unit == "CoverageDB" || unit == "CoverageLB" then
       [coverage_n, epa_allowed_n, succ_allowed_n, expl_allowed_n]
     else if unit == "DL" then [run_stop_win_n]
     else [])

/-- A unit-score map built by `build_maps`: associates `(team, unit)` keys
with a possibly-absent score.  A key can be missing altogether, or present
with a NaN score. -/
abbrev ScoreMap : Type :=
  List ((String × String) × Option ℚ)

/-- `map.get((team, unit), np.nan)`: the score stored under the key, NaN
(absent) when the key is missing from the map. -/
def mapGet (m : ScoreMap) (k : String × String) : Option ℚ :=
  match m with
  | [] => none
  | e :: rest => if e.1 = k then e.2 else mapGet rest k

/-- `x * w if pd.notna(x) else 0`: an absent blend term contributes 0. -/
def optTerm (v : Option ℚ) (w : ℚ) : ℚ :=
  match v with
  | some x => x * w
  | none => 0

/-- The five raw per-unit edges returned by `unit_matchup`. -/
structure UnitEdges where
  QB : Option ℚ
  RB : Option ℚ
  WR : Option ℚ
  TE : Option ℚ
  OL : Option ℚ
deriving Repr, DecidableEq

/-- `unit_matchup(off_team, def_team, off_map, def_map, ...)`. -/
def unit_matchup (off_team def_team : String) (off_map def_map : ScoreMap)
    (qb_cov_w rb_run_w te_covlb_w ol_pass_w : ℚ) : UnitEdges :=
  let qb_cov := mapGet def_map (def_team, "CoverageDB")
  let qb_pr := mapGet def_map (def_team, "PassRush")
  let qb_off := mapGet off_map (off_team, "QB")
  let qb_edge := qb_off.map
    (fun v => v - optTerm qb_cov qb_cov_w - optTerm qb_pr (1 - qb_cov_w))
  let rb_run := mapGet def_map (def_team, "RunDefense")
  let rb_cov := mapGet def_map (def_team, "CoverageLB")
  let rb_off := mapGet off_map (off_team, "RB")
  let rb_edge := rb_off.map
    (fun v => v - optTerm rb_run rb_run_w - optTerm rb_cov (1 - rb_run_w))
  let wr_cov := mapGet def_map (def_team, "CoverageDB")
  let wr_off := mapGet off_map (off_team, "WR")
  let wr_edge :=
    match wr_off, wr_cov with
    | some a, some b => some (a - b)
    | _, _ => none
  let te_covlb := mapGet def_map (def_team, "CoverageLB")
  let te_covdb := mapGet def_map (def_team, "CoverageDB")
  let te_off := mapGet off_map (off_team, "TE")
  let te_edge := te_off.map
    (fun v => v - optTerm te_covlb te_covlb_w - optTerm te_covdb (1 - te_covlb_w))
  let ol_pr := mapGet def_map (def_team, "PassRush")
  let ol_run := mapGet def_map (def_team, "RunDefense")
  let ol_off := mapGet off_map (off_team, "OL")
  let ol_edge := ol_off.map
    (fun v => v - optTerm ol_pr ol_pass_w - optTerm ol_run (1 - ol_pass_w))
  ⟨qb_edge, rb_edge, wr_edge, te_edge, ol_edge⟩

/-- `np.clip(x, lo, hi)`. -/
def clip (x lo hi : ℚ) : ℚ :=
  min (max x lo) hi

/-- The trench-to-finish factor:
`1.0 if pd.isna(ol_edge) else np.clip(0.6 + 0.4 * ol_edge * dep_strength, 0.2, 1.0)`. -/
def ttf (ol_edge : Option ℚ) (dep_strength : ℚ) : ℚ :=
  match ol_edge with
  | none => 1
  | some e => clip (6/10 + 4/10 * e * dep_strength) (2/10) 1

/-- The `adj` dict: TTF multiplies the QB/WR/TE edges (absent stays
absent); RB and OL pass through. -/
def adjustEdges (raw : UnitEdges) (t : ℚ) : UnitEdges :=
  ⟨raw.QB.map (fun v => v * t), raw.RB, raw.WR.map (fun v => v * t),
   raw.TE.map (fun v => v * t), raw.OL⟩

/-- The five caller-supplied unit weights. -/
structure Weights where
  QB : ℚ
  RB : ℚ
  WR : ℚ
  TE : ℚ
  OL : ℚ
deriving Repr, DecidableEq

/-- The `adj.items()` iteration order with the matching weights. -/
def edgeItems (adj : UnitEdges) (w : Weights) : List (ℚ × Option ℚ) :=
  [(w.QB, adj.QB), (w.WR, adj.WR), (w.TE, adj.TE), (w.RB, adj.RB), (w.OL, adj.OL)]

/-- One step of the roll-up loop: accumulate `(total, wsum)` over the
items whose edge is present and whose weight is positive. -/
def rollStep (acc : ℚ × ℚ) (p : ℚ × Option ℚ) : ℚ × ℚ :=
  match p.2 with
  | some v => if 0 < p.1 then (acc.1 + p.1 * v, acc.2 + p.1) else acc
  | none => acc

/-- The final weighted roll-up: `total/wsum if wsum > 0 else np.nan`. -/
def team_edge (adj : UnitEdges) (w : Weights) : Option ℚ :=
  let r := (edgeItems adj w).foldl rollStep (0, 0)
  if 0 < r.2 then some (r.1 / r.2) else none

/-- `adjusted_team_edge(...)` → `(team_edge, raw, adj, ttf)`. -/
def adjusted_team_edge (off_team def_team : String) (off_map def_map : ScoreMap)
    (dep_strength : ℚ) (w : Weights) (qb_cov_w rb_run_w te_covlb_w ol_pass_w : ℚ) :
    Option ℚ × UnitEdges × UnitEdges × ℚ :=
  let raw := unit_matchup off_team def_team off_map def_map
    qb_cov_w rb_run_w te_covlb_w ol_pass_w
  let t := ttf raw.OL dep_strength
  let adj := adjustEdges raw t
  (team_edge adj w, raw, adj, t)

/-- `net = home_edge - away_edge if both present else np.nan`. -/
def netEdge (home_edge away_edge : Option ℚ) : Option ℚ :=
  match home_edge, away_edge with
  | some h, some a => some (h - a)
  | _, _ => none

/-- The module-level verdict classification over the net edge. -/
def verdict (home away : String) (net : Option ℚ) (close_margin : ℚ) : String :=
  match net with
  | none => "Insufficient data"
  | some n =>
    if close_margin < n then "**" ++ home ++ " should win over " ++ away ++ "**"
    else if n < -close_margin then "**" ++ away ++ " should win over " ++ home ++ "**"
    else "**Too close to call**"

/-! Spec-side definitions, phrased from the specification's words, to be
compared with the code-side definitions above. -/

/-- The aggregation filter as the spec words it: season equal to the
target, week ≤ cutoff (inclusive), season-type REG, play-type in
{pass, run}, epa present. -/
def keepPlaySpec (season week : Int) (p : PlayRecord) : Prop :=
  p.season = season ∧ p.week ≤ week ∧ p.season_type = "REG" ∧
    (p.play_type = "pass" ∨ p.play_type = "run") ∧ p.epa ≠ none

/-- An explosive play as the spec words it: a pass with air-yards present
and ≥ 20, or a run with yards-gained ≥ 12. -/
def explosiveSpec (p : PlayRecord) : Prop :=
  (p.play_type = "pass" ∧ ∃ a, p.air_yards = some a ∧ 20 ≤ a) ∨
    (p.play_type = "run" ∧ 12 ≤ p.yards_gained)

/-- The pass plays of team `t`'s offense among the filtered plays. -/
def teamPassPlaysOf (pbp : List PlayRecord) (season week : Int) (t : String) :
    List PlayRecord :=
  (passPlays (filteredPlays pbp season week)).filter (fun p => p.posteam == t)

/-- The run plays of team `t`'s offense among the filtered plays. -/
def teamRunPlaysOf (pbp : List PlayRecord) (season week : Int) (t : String) :
    List PlayRecord :=
  (runPlays (filteredPlays pbp season week)).filter (fun p => p.posteam == t)

/-- Spec-side attempt count of team `t`. -/
def passAttemptCount (pbp : List PlayRecord) (season week : Int) (t : String) : Nat :=
  (teamPassPlaysOf pbp season week t).length

/-- Spec-side sack count of team `t`: the sum of the sack indicators with
an absent indicator counted as 0. -/
def sackSum (pbp : List PlayRecord) (season week : Int) (t : String) : ℚ :=
  ((teamPassPlaysOf pbp season week t).map (fun p => p.sack.getD 0)).sum

/-- Spec-side run count of team `t`. -/
def runCount (pbp : List PlayRecord) (season week : Int) (t : String) : Nat :=
  (teamRunPlaysOf pbp season week t).length

/-- Spec-side stuffed count of team `t`: the number of its runs with
yards-gained ≤ 0. -/
def stuffCount (pbp : List PlayRecord) (season week : Int) (t : String) : Nat :=
  ((teamRunPlaysOf pbp season week t).filter (fun p => decide (p.yards_gained ≤ 0))).length

/-- The offense unit names. -/
def offenseUnitNames : List String :=
  ["QB", "RB", "WR", "TE", "OL"]

/-- The defense unit names. -/
def defenseUnitNames : List String :=
  ["PassRush", "RunDefense", "CoverageDB", "CoverageLB", "DL"]

/-- The units qualifying for the roll-up of a generic item list: present
edge and strictly positive weight, paired as (weight, edge value). -/
def qualList (l : List (ℚ × Option ℚ)) : List (ℚ × ℚ) :=
  l.filterMap (fun p =>
    match p.2 with
    | some v => if 0 < p.1 then some (p.1, v) else none
    | none => none)

/-- The units qualifying for the final roll-up: present edge and strictly
positive weight. -/
def qualifying (adj : UnitEdges) (w : Weights) : List (ℚ × ℚ) :=
  qualList (edgeItems adj w)

/-! Concrete data used by witnesses and counterexamples. -/

/-- A regular-season week-1 pass play: KC offense, epa 1, 25 air yards, no sack. -/
def pPass : PlayRecord :=
  ⟨2025, 1, "REG", "KC", "DEN", "pass", some 1, 5, some 25, some 0⟩

/-- A regular-season week-1 stuffed run: KC offense, negative epa. -/
def pRun : PlayRecord :=
  ⟨2025, 1, "REG", "KC", "DEN", "run", some (-(1/2)), 0, none, none⟩

/-- A postseason play, excluded by the aggregation filter. -/
def pPost : PlayRecord :=
  ⟨2025, 1, "POST", "KC", "DEN", "pass", some 1, 5, none, some 0⟩

/-- A small example play log. -/
def exPbp : List PlayRecord :=
  [pPass, pRun, pPost]

/-- An offense unit-score map giving both teams `A` and `B` the score 1 on
every offense unit. -/
def cOffMap : ScoreMap :=
  [(("A", "QB"), some 1), (("A", "RB"), some 1), (("A", "WR"), some 1),
   (("A", "TE"), some 1), (("A", "OL"), some 1),
   (("B", "QB"), some 1), (("B", "RB"), some 1), (("B", "WR"), some 1),
   (("B", "TE"), some 1), (("B", "OL"), some 1)]

/-- A defense unit-score map giving both teams `A` and `B` the score 0 on
every defense unit. -/
def cDefMap : ScoreMap :=
  [(("A", "PassRush"), some 0), (("A", "RunDefense"), some 0),
   (("A", "CoverageDB"), some 0), (("A", "CoverageLB"), some 0), (("A", "DL"), some 0),
   (("B", "PassRush"), some 0), (("B", "RunDefense"), some 0),
   (("B", "CoverageDB"), some 0), (("B", "CoverageLB"), some 0), (("B", "DL"), some 0)]

/-- An offense unit-score map giving both teams the constant score 1/2. -/
def hOffMap : ScoreMap :=
  [(("A", "QB"), some (1/2)), (("A", "RB"), some (1/2)), (("A", "WR"), some (1/2)),
   (("A", "TE"), some (1/2)), (("A", "OL"), some (1/2)),
   (("B", "QB"), some (1/2)), (("B", "RB"), some (1/2)), (("B", "WR"), some (1/2)),
   (("B", "TE"), some (1/2)), (("B", "OL"), some (1/2))]

/-- A defense unit-score map giving both teams the constant score 1/2. -/
def hDefMap : ScoreMap :=
  [(("A", "PassRush"), some (1/2)), (("A", "RunDefense"), some (1/2)),
   (("A", "CoverageDB"), some (1/2)), (("A", "CoverageLB"), some (1/2)),
   (("A", "DL"), some (1/2)),
   (("B", "PassRush"), some (1/2)), (("B", "RunDefense"), some (1/2)),
   (("B", "CoverageDB"), some (1/2)), (("B", "CoverageLB"), some (1/2)),
   (("B", "DL"), some (1/2))]

/-! Helper lemmas. -/

theorem mapGet_eq_none_of_missing (m : ScoreMap) (k : String × String)
    (h : ∀ e ∈ m, e.1 ≠ k) : mapGet m k = none := by
  induction m with
  | nil => rfl
  | cons e rest ih =>
    have he : e.1 ≠ k := h e (List.mem_cons_self e rest)
    simp only [mapGet, if_neg he]
    exact ih (fun x hx => h x (List.mem_cons_of_mem e hx))

theorem clip_le_hi (x lo hi : ℚ) : clip x lo hi ≤ hi :=
  min_le_right _ _

theorem le_clip (x lo hi : ℚ) (h : lo ≤ hi) : lo ≤ clip x lo hi :=
  le_min (le_max_right _ _) h

/-! C1. -/

/-- C1: on a play log that is empty, or empty after the aggregation
filter, `compute_team_unit_metrics` does return two empty tables without
raising, but the tables built by `pd.DataFrame` over an empty row list
carry no columns at all, contradicting the claimed full
`OffenseUnitMetric`/`DefenseUnitMetric` column sets (and the downstream
normalizer's column accesses then fail rather than classify the games as
insufficient data). -/
theorem C1_empty_log_drops_columns :
    compute_team_unit_metrics [] 2099 3 = ([], []) ∧
    compute_team_unit_metrics [pPost] 2099 3 = ([], []) ∧
    tableColumns (compute_team_unit_metrics [] 2099 3).1 offenseColumnSet = [] ∧
    tableColumns (compute_team_unit_metrics [] 2099 3).2 defenseColumnSet = [] ∧
    tableColumns (compute_team_unit_metrics [] 2099 3).1 offenseColumnSet ≠ offenseColumnSet ∧
    tableColumns (compute_team_unit_metrics [] 2099 3).2 defenseColumnSet ≠ defenseColumnSet := by
  decide

/-! C6. -/

/-- C6: the trench-to-finish factor is 1 when the OL edge is absent and
`clip(0.6 + 0.4·e·s, 0.2, 1.0)` otherwise, always lies in [0.2, 1],
equals 0.6 at a zero OL edge for every `dep_strength`; it scales the
QB/WR/TE edges only (absent edges staying absent) while RB and OL pass
through, and `adjusted_team_edge` applies it exactly so. -/
theorem C6_ttf_law (oe : Option ℚ) (e s tq : ℚ) (raw : UnitEdges)
    (ot dt : String) (om dm : ScoreMap) (w : Weights) (a b c d : ℚ) :
    ttf none s = 1
    ∧ ttf (some e) s = clip (6/10 + 4/10 * e * s) (2/10) 1
    ∧ (2/10 ≤ ttf oe s ∧ ttf oe s ≤ 1)
    ∧ ttf (some 0) s = 6/10
    ∧ (adjustEdges raw tq).QB = raw.QB.map (fun v => v * tq)
    ∧ (adjustEdges raw tq).WR = raw.WR.map (fun v => v * tq)
    ∧ (adjustEdges raw tq).TE = raw.TE.map (fun v => v * tq)
    ∧ (adjustEdges raw tq).RB = raw.RB
    ∧ (adjustEdges raw tq).OL = raw.OL
    ∧ (raw.QB = none → (adjustEdges raw tq).QB = none)
    ∧ (raw.WR = none → (adjustEdges raw tq).WR = none)
    ∧ (raw.TE = none → (adjustEdges raw tq).TE = none)
    ∧ (adjusted_team_edge ot dt om dm s w a b c d).2.2.2 =
        ttf (unit_matchup ot dt om dm a b c d).OL s
    ∧ (adjusted_team_edge ot dt om dm s w a b c d).2.2.1 =
        adjustEdges (unit_matchup ot dt om dm a b c d)
          (ttf (unit_matchup ot dt om dm a b c d).OL s) := by
  refine ⟨rfl, rfl, ?_, ?_, rfl, rfl, rfl, rfl, rfl, ?_, ?_, ?_, rfl, rfl⟩
  · cases oe with
    | none =>
      constructor <;> norm_num [ttf]
    | some v =>
      refine ⟨le_clip _ _ _ (by norm_num), clip_le_hi _ _ _⟩
  · show clip (6/10 + 4/10 * 0 * s) (2/10) 1 = 6/10
    norm_num [clip]
  · intro h
    simp [adjustEdges, h]
  · intro h
    simp [adjustEdges, h]
  · intro h
    simp [adjustEdges, h]

/-- C6 witness at concrete inputs. -/
theorem C6_ttf_law_witness :
    ttf (some 0) 7 = 6/10 ∧ (adjustEdges ⟨none, some 1, none, none, none⟩ (1/2)).QB = none :=
  ⟨(C6_ttf_law (some 0) 0 7 (1/2) ⟨none, some 1, none, none, none⟩ "A" "B" [] []
      ⟨0, 0, 0, 0, 0⟩ 0 0 0 0).2.2.2.1,
   (C6_ttf_law (some 0) 0 7 (1/2) ⟨none, some 1, none, none, none⟩ "A" "B" [] []
      ⟨0, 0, 0, 0, 0⟩ 0 0 0 0).2.2.2.2.2.2.2.2.2.1 rfl⟩

/-! C8. -/

/-- C8: the net edge is home minus away and absent when either operand is
absent; the verdict is "insufficient data" on an absent net, home-favored
strictly above the threshold, away-favored strictly below its negation,
and "too close to call" otherwise — at net exactly ±threshold the verdict
is "too close to call". -/
theorem C8_verdict_law (h a : Option ℚ) (x y n t : ℚ) (home away : String)
    (ht : 0 ≤ t) :
    netEdge (some x) (some y) = some (x - y)
    ∧ (h = none ∨ a = none → netEdge h a = none)
    ∧ verdict home away none t = "Insufficient data"
    ∧ (t < n →
        verdict home away (some n) t = "**" ++ home ++ " should win over " ++ away ++ "**")
    ∧ (n < -t →
        verdict home away (some n) t = "**" ++ away ++ " should win over " ++ home ++ "**")
    ∧ (-t ≤ n → n ≤ t → verdict home away (some n) t = "**Too close to call**")
    ∧ verdict home away (some t) t = "**Too close to call**"
    ∧ verdict home away (some (-t)) t = "**Too close to call**" := by
  refine ⟨rfl, ?_, rfl, ?_, ?_, ?_, ?_, ?_⟩
  · rintro (rfl | rfl)
    · rfl
    · cases h <;> rfl
  · intro hlt
    simp [verdict, hlt]
  · intro hlt
    have h1 : ¬ t < n := not_lt.mpr (le_trans hlt.le (le_trans (neg_nonpos.mpr ht) ht))
    simp [verdict, h1, hlt]
  · intro h1 h2
    simp [verdict, not_lt.mpr h2, not_lt.mpr h1]
  · have h1 : ¬ t < t := lt_irrefl t
    have h2 : ¬ t < -t := not_lt.mpr (le_trans (neg_nonpos.mpr ht) ht)
    simp [verdict, h1, h2]
  · have h1 : ¬ t < -t := not_lt.mpr (le_trans (neg_nonpos.mpr ht) ht)
    have h2 : ¬ -t < -t := lt_irrefl _
    simp [verdict, h1, h2]

/-- C8 witness at concrete inputs. -/
theorem C8_verdict_law_witness :
    netEdge (some 5) (some 2) = some (5 - 2)
    ∧ verdict "KC" "DEN" (some 2) 1 = "**KC should win over DEN**"
    ∧ verdict "KC" "DEN" (some 1) 1 = "**Too close to call**" :=
  ⟨(C8_verdict_law none none 5 2 2 1 "KC" "DEN" (by norm_num)).1,
   (C8_verdict_law none none 5 2 2 1 "KC" "DEN" (by norm_num)).2.2.2.1 (by norm_num),
   (C8_verdict_law none none 5 2 2 1 "KC" "DEN" (by norm_num)).2.2.2.2.2.2.1⟩

/-! C5. -/

/-- C5: lookups of a `(team, unit)` key missing from a score map yield an
absent value rather than an error; the WR edge is present exactly when
both `WR_off` and `CoverageDB_def` are present; for QB, RB, TE and OL each
absent defensive blend term contributes 0 to the subtraction (`optTerm
none w = 0`) while the edge is absent exactly when the offensive operand
is absent. -/
theorem C5_matchup_missing_data (om dm : ScoreMap) (ot dt : String) (w1 w2 w3 w4 : ℚ) :
    (∀ k, (∀ e ∈ om, e.1 ≠ k) → mapGet om k = none)
    ∧ ((unit_matchup ot dt om dm w1 w2 w3 w4).WR.isSome ↔
        (mapGet om (ot, "WR")).isSome ∧ (mapGet dm (dt, "CoverageDB")).isSome)
    ∧ ((unit_matchup ot dt om dm w1 w2 w3 w4).QB.isSome ↔ (mapGet om (ot, "QB")).isSome)
    ∧ ((unit_matchup ot dt om dm w1 w2 w3 w4).RB.isSome ↔ (mapGet om (ot, "RB")).isSome)
    ∧ ((unit_matchup ot dt om dm w1 w2 w3 w4).TE.isSome ↔ (mapGet om (ot, "TE")).isSome)
    ∧ ((unit_matchup ot dt om dm w1 w2 w3 w4).OL.isSome ↔ (mapGet om (ot, "OL")).isSome)
    ∧ (∀ q : ℚ, optTerm none q = 0)
    ∧ (∀ v, mapGet om (ot, "QB") = some v →
        (unit_matchup ot dt om dm w1 w2 w3 w4).QB =
          some (v - optTerm (mapGet dm (dt, "CoverageDB")) w1
                  - optTerm (mapGet dm (dt, "PassRush")) (1 - w1)))
    ∧ (∀ v, mapGet om (ot, "RB") = some v →
        (unit_matchup ot dt om dm w1 w2 w3 w4).RB =
          some (v - optTerm (mapGet dm (dt, "RunDefense")) w2
                  - optTerm (mapGet dm (dt, "CoverageLB")) (1 - w2)))
    ∧ (∀ v, mapGet om (ot, "TE") = some v →
        (unit_matchup ot dt om dm w1 w2 w3 w4).TE =
          some (v - optTerm (mapGet dm (dt, "CoverageLB")) w3
                  - optTerm (mapGet dm (dt, "CoverageDB")) (1 - w3)))
    ∧ (∀ v, mapGet om (ot, "OL") = some v →
        (unit_matchup ot dt om dm w1 w2 w3 w4).OL =
          some (v - optTerm (mapGet dm (dt, "PassRush")) w4
                  - optTerm (mapGet dm (dt, "RunDefense")) (1 - w4))) := by
  refine ⟨mapGet_eq_none_of_missing om, ?_, ?_, ?_, ?_, ?_, fun q => rfl, ?_, ?_, ?_, ?_⟩
  · cases hwo : mapGet om (ot, "WR") <;> cases hwc : mapGet dm (dt, "CoverageDB") <;>
      simp [unit_matchup, hwo, hwc]
  · simp [unit_matchup]
  · simp [unit_matchup]
  · simp [unit_matchup]
  · simp [unit_matchup]
  · intro v hv
    simp [unit_matchup, hv]
  · intro v hv
    simp [unit_matchup, hv]
  · intro v hv
    simp [unit_matchup, hv]
  · intro v hv
    simp [unit_matchup, hv]

/-- C5 witness: a map with no key for team `A` yields absent values and an
absent QB edge; with a present QB score but no defensive keys the QB edge
keeps the full offensive value. -/
theorem C5_matchup_missing_data_witness :
    mapGet [] ("A", "QB") = none
    ∧ (unit_matchup "A" "B" [(("A", "QB"), some 1)] [] (1/2) (1/2) (1/2) (1/2)).QB =
        some (1 - optTerm (mapGet [] ("B", "CoverageDB")) (1/2)
                - optTerm (mapGet [] ("B", "PassRush")) (1 - 1/2)) :=
  ⟨(C5_matchup_missing_data [] [] "A" "B" (1/2) (1/2) (1/2) (1/2)).1 ("A", "QB")
      (by intro e he; cases he),
   (C5_matchup_missing_data [(("A", "QB"), some 1)] [] "A" "B"
      (1/2) (1/2) (1/2) (1/2)).2.2.2.2.2.2.2.1 1 (by simp [mapGet])⟩

/-! C7. -/

theorem qualList_nil : qualList [] = [] := rfl

theorem qualList_cons_none (pw : ℚ) (rest : List (ℚ × Option ℚ)) :
    qualList ((pw, none) :: rest) = qualList rest := by
  simp [qualList, List.filterMap_cons]

theorem qualList_cons_some_pos (pw v : ℚ) (rest : List (ℚ × Option ℚ)) (h : 0 < pw) :
    qualList ((pw, some v) :: rest) = (pw, v) :: qualList rest := by
  simp [qualList, List.filterMap_cons, h]

theorem qualList_cons_some_nonpos (pw v : ℚ) (rest : List (ℚ × Option ℚ))
    (h : ¬ 0 < pw) :
    qualList ((pw, some v) :: rest) = qualList rest := by
  simp [qualList, List.filterMap_cons, h]

theorem foldl_rollStep (l : List (ℚ × Option ℚ)) (acc : ℚ × ℚ) :
    l.foldl rollStep acc =
      (acc.1 + ((qualList l).map (fun q => q.1 * q.2)).sum,
       acc.2 + ((qualList l).map Prod.fst).sum) := by
  induction l generalizing acc with
  | nil => simp [qualList]
  | cons p rest ih =>
    obtain ⟨pw, pe⟩ := p
    cases pe with
    | none =>
      rw [List.foldl_cons, show rollStep acc (pw, none) = acc from rfl, ih,
        qualList_cons_none]
    | some v =>
      by_cases hw : 0 < pw
      · rw [List.foldl_cons,
          show rollStep acc (pw, some v) = (acc.1 + pw * v, acc.2 + pw) from by
            simp [rollStep, hw],
          ih, qualList_cons_some_pos pw v rest hw]
        simp only [List.map_cons, List.sum_cons, Prod.mk.injEq]
        constructor <;> ring
      · rw [List.foldl_cons, show rollStep acc (pw, some v) = acc from by simp [rollStep, hw],
          ih, qualList_cons_some_nonpos pw v rest hw]

theorem qualList_pos (l : List (ℚ × Option ℚ)) :
    ∀ q ∈ qualList l, 0 < q.1 := by
  induction l with
  | nil => intro q hq; simp [qualList_nil] at hq
  | cons p rest ih =>
    obtain ⟨pw, pe⟩ := p
    intro q hq
    cases pe with
    | none =>
      rw [qualList_cons_none] at hq
      exact ih q hq
    | some v =>
      by_cases hw : 0 < pw
      · rw [qualList_cons_some_pos pw v rest hw] at hq
        rcases List.mem_cons.mp hq with h | h
        · rw [h]; exact hw
        · exact ih q h
      · rw [qualList_cons_some_nonpos pw v rest hw] at hq
        exact ih q hq

theorem qualList_weight_sum_pos (l : List (ℚ × Option ℚ)) (h : qualList l ≠ []) :
    0 < ((qualList l).map Prod.fst).sum := by
  apply List.sum_pos
  · intro x hx
    obtain ⟨q, hq, rfl⟩ := List.mem_map.mp hx
    exact qualList_pos l q hq
  · simpa using h

/-- C7: the team edge is the weighted mean over exactly the units with a
present edge and strictly positive weight; with no qualifying unit (in
particular all five weights 0) the team edge is absent, and with exactly
one qualifying unit it equals that unit's adjusted edge exactly. -/
theorem C7_rollup_law (adj : UnitEdges) (w : Weights)
    (hq : 0 ≤ w.QB) (hr : 0 ≤ w.RB) (hw : 0 ≤ w.WR) (hte : 0 ≤ w.TE) (hol : 0 ≤ w.OL) :
    (team_edge adj w =
      if qualifying adj w = [] then none
      else some (((qualifying adj w).map (fun q => q.1 * q.2)).sum /
                 ((qualifying adj w).map Prod.fst).sum))
    ∧ (w.QB = 0 → w.RB = 0 → w.WR = 0 → w.TE = 0 → w.OL = 0 → team_edge adj w = none)
    ∧ (∀ a v, qualifying adj w = [(a, v)] → team_edge adj w = some v) := by
  have hfold := foldl_rollStep (edgeItems adj w) (0, 0)
  have hmain : team_edge adj w =
      if qualifying adj w = [] then none
      else some (((qualifying adj w).map (fun q => q.1 * q.2)).sum /
                 ((qualifying adj w).map Prod.fst).sum) := by
    rw [team_edge, hfold]
    by_cases hnil : qualList (edgeItems adj w) = []
    · have hq0 : qualifying adj w = [] := hnil
      rw [hq0]
      rw [hnil]
      norm_num
    · have hpos := qualList_weight_sum_pos (edgeItems adj w) hnil
      have hq1 : qualifying adj w = qualList (edgeItems adj w) := rfl
      rw [hq1, if_neg hnil]
      simp only [zero_add]
      rw [if_pos hpos]
  refine ⟨hmain, ?_, ?_⟩
  · intro h1 h2 h3 h4 h5
    rw [hmain]
    have hq0 : qualifying adj w = [] := by
      show qualList [(w.QB, adj.QB), (w.WR, adj.WR), (w.TE, adj.TE),
        (w.RB, adj.RB), (w.OL, adj.OL)] = []
      rw [h1, h2, h3, h4, h5]
      cases adj.QB <;> cases adj.WR <;> cases adj.TE <;> cases adj.RB <;> cases adj.OL <;>
        simp [qualList_nil, qualList_cons_none, qualList_cons_some_nonpos]
    simp [hq0]
  · intro a v hone
    have hm : (a, v) ∈ qualList (edgeItems adj w) := by
      have hq1 : qualList (edgeItems adj w) = [(a, v)] := hone
      rw [hq1]
      exact List.mem_singleton.mpr rfl
    have ha : 0 < a := qualList_pos (edgeItems adj w) (a, v) hm
    rw [hmain, hone, if_neg (by simp)]
    simp only [List.map_cons, List.map_nil, List.sum_cons, List.sum_nil, add_zero]
    exact congrArg some (mul_div_cancel_left₀ v ha.ne')

/-- C7 witness: with only the QB unit weighted and its edge present, the
team edge equals the QB edge exactly. -/
theorem C7_rollup_law_witness :
    qualifying ⟨some 3, none, none, none, none⟩ ⟨2, 0, 0, 0, 0⟩ = [(2, 3)]
    ∧ team_edge ⟨some 3, none, none, none, none⟩ ⟨2, 0, 0, 0, 0⟩ = some 3 := by
  have hqual : qualifying ⟨some 3, none, none, none, none⟩ ⟨2, 0, 0, 0, 0⟩ = [(2, 3)] := by
    show qualList [((2 : ℚ), some (3 : ℚ)), (0, none), (0, none), (0, none), (0, none)] =
      [(2, 3)]
    rw [qualList_cons_some_pos 2 3 _ (by norm_num), qualList_cons_none, qualList_cons_none,
      qualList_cons_none, qualList_cons_none, qualList_nil]
  exact ⟨hqual,
    (C7_rollup_law ⟨some 3, none, none, none, none⟩ ⟨2, 0, 0, 0, 0⟩
      (by norm_num) (by norm_num) (by norm_num) (by norm_num) (by norm_num)).2.2 2 3 hqual⟩

/-! C4. -/

theorem offenseUnits_unit_mem (df : List PlayRecord) (r : OffRow)
    (h : r ∈ offenseUnits df) : r.unit ∈ offenseUnitNames := by
  simp only [offenseUnits, List.mem_append, List.mem_flatten, List.mem_map] at h
  rcases h with ⟨l, ⟨t, ht, rfl⟩, hr⟩ | ⟨t, ht, rfl⟩
  · simp only [List.mem_cons, List.not_mem_nil, or_false] at hr
    rcases hr with rfl | rfl | rfl | rfl
    · simp [skillRow, offenseUnitNames]
    · simp [skillRow, offenseUnitNames]
    · simp [skillRow, offenseUnitNames]
    · simp [skillRow, offenseUnitNames]
  · simp [offenseUnitNames]

theorem defenseUnits_unit_mem (df : List PlayRecord) (r : DefRow)
    (h : r ∈ defenseUnits df) : r.unit ∈ defenseUnitNames := by
  simp only [defenseUnits, List.mem_flatten, List.mem_map] at h
  obtain ⟨l, ⟨t, ht, rfl⟩, hr⟩ := h
  simp only [List.mem_cons, List.not_mem_nil, or_false] at hr
  rcases hr with rfl | rfl | rfl | rfl | rfl
  · simp [defenseUnitNames]
  · simp [defenseUnitNames]
  · simp [defenseUnitNames]
  · simp [defenseUnitNames]
  · simp [defenseUnitNames]

/-- C4: each unit score is the arithmetic mean of the unit's non-absent
sub-metrics over the unit-specific source set ({pbw, rbw} for OL; the
rate triple for QB/RB/WR/TE; pressure for PassRush; run-stop, explosive-
and success-allowed for RunDefense; coverage plus the three allowed rates
for CoverageDB/CoverageLB; run-stop for DL); if every relevant sub-metric
is absent the score is absent, never zero; an unrecognised unit name gets
an absent score from the defense scorer, and the tables built by
`compute_team_unit_metrics` only ever carry the known unit names. -/
theorem C4_unit_score_rule (e s x pb rb pr rs cov ea sa xa : Option ℚ) :
    (∀ u, u ∈ ["QB", "RB", "WR", "TE"] →
      offense_unit_score u e s x pb rb = meanOfPresent [e, s, x])
    ∧ offense_unit_score "OL" e s x pb rb = meanOfPresent [pb, rb]
    ∧ (∀ u, u ∈ ["QB", "RB", "WR", "TE"] →
        offense_unit_score u none none none pb rb = none)
    ∧ offense_unit_score "OL" e s x none none = none
    ∧ defense_unit_score "PassRush" ea sa xa pr rs cov = meanOfPresent [pr]
    ∧ defense_unit_score "RunDefense" ea sa xa pr rs cov = meanOfPresent [rs, xa, sa]
    ∧ defense_unit_score "CoverageDB" ea sa xa pr rs cov = meanOfPresent [cov, ea, sa, xa]
    ∧ defense_unit_score "CoverageLB" ea sa xa pr rs cov = meanOfPresent [cov, ea, sa, xa]
    ∧ defense_unit_score "DL" ea sa xa pr rs cov = meanOfPresent [rs]
    ∧ defense_unit_score "PassRush" ea sa xa none rs cov = none
    ∧ defense_unit_score "RunDefense" ea none none pr none cov = none
    ∧ defense_unit_score "CoverageDB" none none none pr rs none = none
    ∧ defense_unit_score "CoverageLB" none none none pr rs none = none
    ∧ defense_unit_score "DL" ea sa xa pr none cov = none
    ∧ (∀ u, u ∉ defenseUnitNames → defense_unit_score u ea sa xa pr rs cov = none)
    ∧ (∀ a b : ℚ, meanOfPresent [some a, some b] = some ((a + b) / 2))
    ∧ (∀ a : ℚ, meanOfPresent [none, some a, none] = some a)
    ∧ (∀ pbp season week r, r ∈ (compute_team_unit_metrics pbp season week).1 →
        r.unit ∈ offenseUnitNames)
    ∧ (∀ pbp season week r, r ∈ (compute_team_unit_metrics pbp season week).2 →
        r.unit ∈ defenseUnitNames) := by
  refine ⟨?_, rfl, ?_, rfl, rfl, rfl, rfl, rfl, rfl, rfl, rfl, rfl, rfl, rfl, ?_, ?_, ?_,
    fun pbp season week r h => offenseUnits_unit_mem _ r h,
    fun pbp season week r h => defenseUnits_unit_mem _ r h⟩
  · intro u hu
    simp only [List.mem_cons, List.not_mem_nil, or_false] at hu
    rcases hu with rfl | rfl | rfl | rfl
    · rfl
    · rfl
    · rfl
    · rfl
  · intro u hu
    simp only [List.mem_cons, List.not_mem_nil, or_false] at hu
    rcases hu with rfl | rfl | rfl | rfl
    · rfl
    · rfl
    · rfl
    · rfl
  · intro u hu
    have h1 : (u == "PassRush") = false := by
      simp only [beq_eq_false_iff_ne, ne_eq]
      intro hh
      exact hu (by simp [defenseUnitNames, hh])
    have h2 : (u == "RunDefense") = false := by
      simp only [beq_eq_false_iff_ne, ne_eq]
      intro hh
      exact hu (by simp [defenseUnitNames, hh])
    have h3 : (u == "CoverageDB") = false := by
      simp only [beq_eq_false_iff_ne, ne_eq]
      intro hh
      exact hu (by simp [defenseUnitNames, hh])
    have h4 : (u == "CoverageLB") = false := by
      simp only [beq_eq_false_iff_ne, ne_eq]
      intro hh
      exact hu (by simp [defenseUnitNames, hh])
    have h5 : (u == "DL") = false := by
      simp only [beq_eq_false_iff_ne, ne_eq]
      intro hh
      exact hu (by simp [defenseUnitNames, hh])
    simp [defense_unit_score, h1, h2, h3, h4, h5, meanOfPresent]
  · intro a b
    simp [meanOfPresent]
  · intro a
    simp [meanOfPresent]

/-- C4 witness at concrete inputs: a skill unit averages its rate triple,
the mean of two present values is their average, and an unknown unit name
receives an absent defense score. -/
theorem C4_unit_score_rule_witness :
    offense_unit_score "QB" (some 1) (some 0) none none none =
      meanOfPresent [some 1, some 0, none]
    ∧ defense_unit_score "Nickel" (some 1) (some 1) (some 1) (some 1) (some 1) (some 1) =
        none :=
  ⟨(C4_unit_score_rule (some 1) (some 0) none none none (some 1) (some 1) (some 1)
      (some 1) (some 1) (some 1)).1 "QB" (by simp),
   (C4_unit_score_rule (some 1) (some 0) none none none (some 1) (some 1) (some 1)
      (some 1) (some 1) (some 1)).2.2.2.2.2.2.2.2.2.2.2.2.2.2.1 "Nickel" (by decide)⟩

/-! C3. -/

theorem exists_two_distinct_of_nunique (s : List (Option ℚ)) (h : 2 ≤ nunique s) :
    ∃ a b, a ∈ presentVals s ∧ b ∈ presentVals s ∧ a ≠ b := by
  rcases hd : (presentVals s).dedup with _ | ⟨a, tl⟩
  · rw [nunique, hd] at h
    simp at h
  · rcases tl with _ | ⟨b, rest⟩
    · rw [nunique, hd] at h
      simp at h
    · have hnd := (presentVals s).nodup_dedup
      rw [hd] at hnd
      have hab : a ≠ b := by
        intro he
        exact (List.nodup_cons.mp hnd).1 (he ▸ List.mem_cons_self b rest)
      have h1 : a ∈ (presentVals s).dedup := by
        rw [hd]
        exact List.mem_cons_self _ _
      have h2 : b ∈ (presentVals s).dedup := by
        rw [hd]
        exact List.mem_cons_of_mem a (List.mem_cons_self b rest)
      exact ⟨a, b, List.mem_dedup.mp h1, List.mem_dedup.mp h2, hab⟩

theorem min_lt_max_of_two_distinct (l : List ℚ) (a b : ℚ)
    (ha : a ∈ l) (hb : b ∈ l) (hab : a ≠ b) :
    ∃ mn mx, l.min? = some mn ∧ l.max? = some mx ∧ mn < mx := by
  obtain ⟨mn, hmn⟩ := Option.isSome_iff_exists.mp (List.isSome_min?_of_mem ha)
  obtain ⟨mx, hmx⟩ := Option.isSome_iff_exists.mp (List.isSome_max?_of_mem ha)
  have hlow : ∀ c ∈ l, mn ≤ c :=
    (List.le_min?_iff (fun _ _ _ => le_min_iff) hmn).mp le_rfl
  have hhigh : ∀ c ∈ l, c ≤ mx :=
    (List.max?_le_iff (fun _ _ _ => max_le_iff) hmx).mp le_rfl
  refine ⟨mn, mx, hmn, hmx, ?_⟩
  rcases lt_or_le mn mx with h | h
  · exact h
  · exfalso
    have hae : a = mn := le_antisymm (le_trans (hhigh a ha) h) (hlow a ha)
    have hbe : b = mn := le_antisymm (le_trans (hhigh b hb) h) (hlow b hb)
    exact hab (hae.trans hbe.symm)

theorem normalize_invert_eq (s : List (Option ℚ)) :
    normalize s true = (normalize s false).map (Option.map (fun x => (1 : ℚ) - x)) := by
  simp only [normalize, if_true, if_false, Bool.false_eq_true]

theorem normalize_const_branch (s : List (Option ℚ)) (h : nunique s ≤ 1) :
    normalize s false = s.map (fun _ => some (1/2 : ℚ)) := by
  simp only [normalize, if_pos h, Bool.false_eq_true, if_false]

theorem normalize_rescale_branch (s : List (Option ℚ)) (mn mx : ℚ)
    (h : ¬ nunique s ≤ 1) (hmn : (presentVals s).min? = some mn)
    (hmx : (presentVals s).max? = some mx) (hne : mx ≠ mn) :
    normalize s false = s.map (Option.map (fun x => (x - mn) / (mx - mn))) := by
  simp only [normalize, if_neg h, hmn, hmx, if_neg hne, Bool.false_eq_true, if_false]

/-- C3: with at most one distinct present value every output position is
exactly 0.5 (for `invert=false` and `invert=true` alike); with at least
two distinct present values the output linearly rescales each present
value by the observed min/max (which exist and differ) while every absent
value stays absent; `invert=true` returns one minus the `invert=false`
output at every present position and keeps absent positions absent. -/
theorem C3_normalize_law (s : List (Option ℚ)) :
    (normalize s false).length = s.length
    ∧ (nunique s ≤ 1 → ∀ i, i < s.length → (normalize s false)[i]? = some (some (1/2)))
    ∧ (nunique s ≤ 1 → ∀ i, i < s.length → (normalize s true)[i]? = some (some (1/2)))
    ∧ (2 ≤ nunique s →
        ∃ mn mx, (presentVals s).min? = some mn ∧ (presentVals s).max? = some mx ∧ mn < mx
          ∧ (∀ (i : Nat) (x : ℚ), s[i]? = some (some x) →
              (normalize s false)[i]? = some (some ((x - mn) / (mx - mn))))
          ∧ (∀ i : Nat, s[i]? = some none → (normalize s false)[i]? = some none))
    ∧ (∀ (i : Nat) (x : ℚ), (normalize s false)[i]? = some (some x) →
        (normalize s true)[i]? = some (some (1 - x)))
    ∧ (∀ i : Nat, (normalize s false)[i]? = some none →
        (normalize s true)[i]? = some none) := by
  refine ⟨?_, ?_, ?_, ?_, ?_, ?_⟩
  · by_cases h : nunique s ≤ 1
    · rw [normalize_const_branch s h, List.length_map]
    · push_neg at h
      obtain ⟨a, b, ha, hb, hab⟩ := exists_two_distinct_of_nunique s h
      obtain ⟨mn, mx, hmn, hmx, hlt⟩ := min_lt_max_of_two_distinct _ a b ha hb hab
      rw [normalize_rescale_branch s mn mx (by omega) hmn hmx (ne_of_gt hlt),
        List.length_map]
  · intro h i hi
    rw [normalize_const_branch s h, List.getElem?_map, List.getElem?_eq_getElem hi]
    rfl
  · intro h i hi
    rw [normalize_invert_eq, normalize_const_branch s h, List.map_map,
      List.getElem?_map, List.getElem?_eq_getElem hi]
    norm_num
  · intro h
    obtain ⟨a, b, ha, hb, hab⟩ := exists_two_distinct_of_nunique s h
    obtain ⟨mn, mx, hmn, hmx, hlt⟩ := min_lt_max_of_two_distinct _ a b ha hb hab
    have hbr := normalize_rescale_branch s mn mx (by omega) hmn hmx (ne_of_gt hlt)
    refine ⟨mn, mx, hmn, hmx, hlt, ?_, ?_⟩
    · intro i x hx
      rw [hbr, List.getElem?_map, hx]
      rfl
    · intro i hx
      rw [hbr, List.getElem?_map, hx]
      rfl
  · intro i x hx
    rw [normalize_invert_eq, List.getElem?_map, hx]
    rfl
  · intro i hx
    rw [normalize_invert_eq, List.getElem?_map, hx]
    rfl

/-- C3 witness: a constant column normalizes to 0.5 everywhere, and a
two-valued column with an absent entry keeps that entry absent after
rescaling. -/
theorem C3_normalize_law_witness :
    (normalize [some 2, none, some 2] false)[1]? = some (some (1/2))
    ∧ (normalize [some 1, none, some 3] false)[1]? = some none := by
  constructor
  · exact (C3_normalize_law [some 2, none, some 2]).2.1 (by decide) 1 (by norm_num)
  · obtain ⟨mn, mx, hmn, hmx, hlt, hres, habs⟩ :=
      (C3_normalize_law [some 1, none, some 3]).2.2.2.1 (by decide)
    exact habs 1 rfl

/-! C9. -/

theorem unit_matchup_symm (om dm : ScoreMap) (A B : String) (a b c d : ℚ)
    (hOff : ∀ u ∈ offenseUnitNames, mapGet om (A, u) = mapGet om (B, u))
    (hDef : ∀ u ∈ defenseUnitNames, mapGet dm (A, u) = mapGet dm (B, u)) :
    unit_matchup A B om dm a b c d = unit_matchup B A om dm a b c d := by
  have hQB := hOff "QB" (by simp [offenseUnitNames])
  have hRB := hOff "RB" (by simp [offenseUnitNames])
  have hWR := hOff "WR" (by simp [offenseUnitNames])
  have hTE := hOff "TE" (by simp [offenseUnitNames])
  have hOL := hOff "OL" (by simp [offenseUnitNames])
  have hPR := hDef "PassRush" (by simp [defenseUnitNames])
  have hRD := hDef "RunDefense" (by simp [defenseUnitNames])
  have hDB := hDef "CoverageDB" (by simp [defenseUnitNames])
  have hLB := hDef "CoverageLB" (by simp [defenseUnitNames])
  have hDL := hDef "DL" (by simp [defenseUnitNames])
  simp only [unit_matchup, hQB, hRB, hWR, hTE, hOL, hPR, hRD, hDB, hLB, hDL]

theorem adjusted_team_edge_symm (om dm : ScoreMap) (A B : String) (ds : ℚ)
    (w : Weights) (a b c d : ℚ)
    (hOff : ∀ u ∈ offenseUnitNames, mapGet om (A, u) = mapGet om (B, u))
    (hDef : ∀ u ∈ defenseUnitNames, mapGet dm (A, u) = mapGet dm (B, u)) :
    adjusted_team_edge A B om dm ds w a b c d = adjusted_team_edge B A om dm ds w a b c d := by
  have h := unit_matchup_symm om dm A B a b c d hOff hDef
  simp only [adjusted_team_edge, h]

theorem qualList_mem_orig (l : List (ℚ × Option ℚ)) (q : ℚ × ℚ) (h : q ∈ qualList l) :
    (q.1, some q.2) ∈ l := by
  induction l with
  | nil => rw [qualList_nil] at h; cases h
  | cons p rest ih =>
    obtain ⟨pw, pe⟩ := p
    cases pe with
    | none =>
      rw [qualList_cons_none] at h
      exact List.mem_cons_of_mem _ (ih h)
    | some v =>
      by_cases hw : 0 < pw
      · rw [qualList_cons_some_pos pw v rest hw] at h
        rcases List.mem_cons.mp h with rfl | h
        · exact List.mem_cons.mpr (Or.inl rfl)
        · exact List.mem_cons_of_mem _ (ih h)
      · rw [qualList_cons_some_nonpos pw v rest hw] at h
        exact List.mem_cons_of_mem _ (ih h)

theorem team_edge_all_zero (w : Weights)
    (hw : 0 < w.QB ∨ 0 < w.RB ∨ 0 < w.WR ∨ 0 < w.TE ∨ 0 < w.OL) :
    team_edge ⟨some 0, some 0, some 0, some 0, some 0⟩ w = some 0 := by
  have hval : ∀ q ∈ qualList (edgeItems ⟨some 0, some 0, some 0, some 0, some 0⟩ w),
      q.2 = 0 := by
    intro q hq
    have horig := qualList_mem_orig _ q hq
    simp only [edgeItems, List.mem_cons, List.not_mem_nil, or_false, Prod.mk.injEq,
      Option.some.injEq] at horig
    rcases horig with ⟨-, h2⟩ | ⟨-, h2⟩ | ⟨-, h2⟩ | ⟨-, h2⟩ | ⟨-, h2⟩ <;> exact h2
  have hmem : qualList (edgeItems ⟨some 0, some 0, some 0, some 0, some 0⟩ w) ≠ [] := by
    rcases hw with h | h | h | h | h
    · have hin : ((w.QB, 0) : ℚ × ℚ) ∈
          qualList (edgeItems ⟨some 0, some 0, some 0, some 0, some 0⟩ w) :=
        List.mem_filterMap.mpr ⟨(w.QB, some 0), by simp [edgeItems], by simp [h]⟩
      exact List.ne_nil_of_mem hin
    · have hin : ((w.RB, 0) : ℚ × ℚ) ∈
          qualList (edgeItems ⟨some 0, some 0, some 0, some 0, some 0⟩ w) :=
        List.mem_filterMap.mpr ⟨(w.RB, some 0), by simp [edgeItems], by simp [h]⟩
      exact List.ne_nil_of_mem hin
    · have hin : ((w.WR, 0) : ℚ × ℚ) ∈
          qualList (edgeItems ⟨some 0, some 0, some 0, some 0, some 0⟩ w) :=
        List.mem_filterMap.mpr ⟨(w.WR, some 0), by simp [edgeItems], by simp [h]⟩
      exact List.ne_nil_of_mem hin
    · have hin : ((w.TE, 0) : ℚ × ℚ) ∈
          qualList (edgeItems ⟨some 0, some 0, some 0, some 0, some 0⟩ w) :=
        List.mem_filterMap.mpr ⟨(w.TE, some 0), by simp [edgeItems], by simp [h]⟩
      exact List.ne_nil_of_mem hin
    · have hin : ((w.OL, 0) : ℚ × ℚ) ∈
          qualList (edgeItems ⟨some 0, some 0, some 0, some 0, some 0⟩ w) :=
        List.mem_filterMap.mpr ⟨(w.OL, some 0), by simp [edgeItems], by simp [h]⟩
      exact List.ne_nil_of_mem hin
  have hsum : ((qualList (edgeItems ⟨some 0, some 0, some 0, some 0, some 0⟩ w)).map
      (fun q => q.1 * q.2)).sum = 0 := by
    apply List.sum_eq_zero
    intro x hx
    obtain ⟨q, hq, rfl⟩ := List.mem_map.mp hx
    rw [hval q hq, mul_zero]
  rw [team_edge, foldl_rollStep]
  simp only [zero_add]
  rw [if_pos (qualList_weight_sum_pos _ hmem), hsum, zero_div]

/-- C9 counterexample: two teams whose offensive and defensive unit-score
maps agree unit-by-unit (every offense score 1, every defense score 0),
for which the QB raw edge is 1 — not 0 — and the trench-to-finish factor
is 1, not 0.6, refuting the claim that identical maps force zero raw
edges and TTF = 0.6. -/
theorem C9_identical_maps_counterexample :
    offenseUnitNames.map (fun u => mapGet cOffMap ("A", u)) =
      offenseUnitNames.map (fun u => mapGet cOffMap ("B", u))
    ∧ defenseUnitNames.map (fun u => mapGet cDefMap ("A", u)) =
        defenseUnitNames.map (fun u => mapGet cDefMap ("B", u))
    ∧ (unit_matchup "A" "B" cOffMap cDefMap (1/2) (1/2) (1/2) (1/2)).QB = some 1
    ∧ (unit_matchup "A" "B" cOffMap cDefMap (1/2) (1/2) (1/2) (1/2)).QB ≠ some 0
    ∧ ttf (unit_matchup "A" "B" cOffMap cDefMap (1/2) (1/2) (1/2) (1/2)).OL 1 = 1
    ∧ ttf (unit_matchup "A" "B" cOffMap cDefMap (1/2) (1/2) (1/2) (1/2)).OL 1 ≠ 6/10 := by
  have hQB : (unit_matchup "A" "B" cOffMap cDefMap (1/2) (1/2) (1/2) (1/2)).QB = some 1 := by
    simp [unit_matchup, mapGet, cOffMap, cDefMap, optTerm]
  have hOL : (unit_matchup "A" "B" cOffMap cDefMap (1/2) (1/2) (1/2) (1/2)).OL = some 1 := by
    simp [unit_matchup, mapGet, cOffMap, cDefMap, optTerm]
  have hTTF : ttf (unit_matchup "A" "B" cOffMap cDefMap (1/2) (1/2) (1/2) (1/2)).OL 1 = 1 := by
    rw [hOL]
    norm_num [ttf, clip]
  refine ⟨?_, ?_, hQB, ?_, hTTF, ?_⟩
  · simp [offenseUnitNames, mapGet, cOffMap]
  · simp [defenseUnitNames, mapGet, cDefMap]
  · rw [hQB]
    norm_num
  · rw [hTTF]
    norm_num

/-- C9 amended: when the two teams' unit-score maps agree unit-by-unit,
the two sides' computations coincide, so the net edge is 0 whenever the
team edges are present and the verdict is "too close to call" for every
positive threshold; the original claim's stronger conclusion (all raw
edges 0, TTF exactly 0.6, adjusted edges 0) holds under the stronger
premise that every unit score of both teams equals one common constant. -/
theorem C9_identical_maps (om dm : ScoreMap) (A B : String) (ds t cst : ℚ)
    (w : Weights) (a b c d : ℚ) :
    ((∀ u ∈ offenseUnitNames, mapGet om (A, u) = mapGet om (B, u)) →
     (∀ u ∈ defenseUnitNames, mapGet dm (A, u) = mapGet dm (B, u)) →
      adjusted_team_edge A B om dm ds w a b c d = adjusted_team_edge B A om dm ds w a b c d
      ∧ (∀ e, (adjusted_team_edge A B om dm ds w a b c d).1 = some e →
          netEdge (adjusted_team_edge A B om dm ds w a b c d).1
            (adjusted_team_edge B A om dm ds w a b c d).1 = some 0
          ∧ (0 < t →
              verdict A B (netEdge (adjusted_team_edge A B om dm ds w a b c d).1
                (adjusted_team_edge B A om dm ds w a b c d).1) t =
                "**Too close to call**")))
    ∧ ((∀ u ∈ offenseUnitNames, mapGet om (A, u) = some cst ∧ mapGet om (B, u) = some cst) →
       (∀ u ∈ defenseUnitNames, mapGet dm (A, u) = some cst ∧ mapGet dm (B, u) = some cst) →
        unit_matchup A B om dm a b c d = ⟨some 0, some 0, some 0, some 0, some 0⟩
        ∧ ttf (unit_matchup A B om dm a b c d).OL ds = 6/10
        ∧ adjustEdges (unit_matchup A B om dm a b c d)
            (ttf (unit_matchup A B om dm a b c d).OL ds) =
            ⟨some 0, some 0, some 0, some 0, some 0⟩
        ∧ ((0 < w.QB ∨ 0 < w.RB ∨ 0 < w.WR ∨ 0 < w.TE ∨ 0 < w.OL) →
            (adjusted_team_edge A B om dm ds w a b c d).1 = some 0
            ∧ (0 < t →
                verdict A B (netEdge (adjusted_team_edge A B om dm ds w a b c d).1
                  (adjusted_team_edge B A om dm ds w a b c d).1) t =
                  "**Too close to call**"))) := by
  constructor
  · intro hOff hDef
    have hsym := adjusted_team_edge_symm om dm A B ds w a b c d hOff hDef
    refine ⟨hsym, fun e he => ?_⟩
    have hB : (adjusted_team_edge B A om dm ds w a b c d).1 = some e := by
      rw [← hsym]
      exact he
    have hnet : netEdge (adjusted_team_edge A B om dm ds w a b c d).1
        (adjusted_team_edge B A om dm ds w a b c d).1 = some 0 := by
      rw [he, hB]
      simp [netEdge]
    refine ⟨hnet, fun ht => ?_⟩
    rw [hnet]
    have h1 : ¬ t < (0 : ℚ) := not_lt.mpr ht.le
    have h2 : ¬ (0 : ℚ) < -t := by
      rw [neg_pos]
      exact not_lt.mpr ht.le
    simp [verdict, h1, h2]
  · intro hOff hDef
    have hQB := (hOff "QB" (by simp [offenseUnitNames])).1
    have hRB := (hOff "RB" (by simp [offenseUnitNames])).1
    have hWR := (hOff "WR" (by simp [offenseUnitNames])).1
    have hTE := (hOff "TE" (by simp [offenseUnitNames])).1
    have hOL := (hOff "OL" (by simp [offenseUnitNames])).1
    have hPR := (hDef "PassRush" (by simp [defenseUnitNames])).2
    have hRD := (hDef "RunDefense" (by simp [defenseUnitNames])).2
    have hDB := (hDef "CoverageDB" (by simp [defenseUnitNames])).2
    have hLB := (hDef "CoverageLB" (by simp [defenseUnitNames])).2
    have hraw : unit_matchup A B om dm a b c d = ⟨some 0, some 0, some 0, some 0, some 0⟩ := by
      simp only [unit_matchup, hQB, hRB, hWR, hTE, hOL, hPR, hRD, hDB, hLB, optTerm,
        Option.map_some', UnitEdges.mk.injEq, Option.some.injEq]
      refine ⟨by ring, by ring, by ring, by ring, by ring⟩
    have httf : ttf (unit_matchup A B om dm a b c d).OL ds = 6/10 := by
      rw [hraw]
      show clip (6/10 + 4/10 * 0 * ds) (2/10) 1 = 6/10
      norm_num [clip]
    have hadj : adjustEdges (unit_matchup A B om dm a b c d)
        (ttf (unit_matchup A B om dm a b c d).OL ds) =
        ⟨some 0, some 0, some 0, some 0, some 0⟩ := by
      rw [httf, hraw]
      simp [adjustEdges]
    refine ⟨hraw, httf, hadj, fun hw => ?_⟩
    have hOffSym : ∀ u ∈ offenseUnitNames, mapGet om (A, u) = mapGet om (B, u) := by
      intro u hu
      rw [(hOff u hu).1, (hOff u hu).2]
    have hDefSym : ∀ u ∈ defenseUnitNames, mapGet dm (A, u) = mapGet dm (B, u) := by
      intro u hu
      rw [(hDef u hu).1, (hDef u hu).2]
    have hteam : (adjusted_team_edge A B om dm ds w a b c d).1 = some 0 := by
      show team_edge (adjustEdges (unit_matchup A B om dm a b c d)
        (ttf (unit_matchup A B om dm a b c d).OL ds)) w = some 0
      rw [hadj]
      exact team_edge_all_zero w hw
    refine ⟨hteam, fun ht => ?_⟩
    have hsym := adjusted_team_edge_symm om dm A B ds w a b c d hOffSym hDefSym
    have hB : (adjusted_team_edge B A om dm ds w a b c d).1 = some 0 := by
      rw [← hsym]
      exact hteam
    rw [hteam, hB]
    have h1 : ¬ t < (0 : ℚ) := not_lt.mpr ht.le
    have h2 : ¬ (0 : ℚ) < -t := by
      rw [neg_pos]
      exact not_lt.mpr ht.le
    simp [netEdge, verdict, h1, h2]

/-- C9 witness: with both teams' scores all equal to 1/2 the raw edges are
all 0 and the overall adjusted edge is 0. -/
theorem C9_identical_maps_witness :
    unit_matchup "A" "B" hOffMap hDefMap (1/2) (1/2) (1/2) (1/2) =
      ⟨some 0, some 0, some 0, some 0, some 0⟩
    ∧ (adjusted_team_edge "A" "B" hOffMap hDefMap 1 ⟨1, 1, 1, 1, 1⟩
        (1/2) (1/2) (1/2) (1/2)).1 = some 0 := by
  have h := (C9_identical_maps hOffMap hDefMap "A" "B" 1 1 (1/2) ⟨1, 1, 1, 1, 1⟩
      (1/2) (1/2) (1/2) (1/2)).2
    (by
      intro u hu
      simp only [offenseUnitNames, List.mem_cons, List.not_mem_nil, or_false] at hu
      rcases hu with rfl | rfl | rfl | rfl | rfl <;>
        exact ⟨by simp [mapGet, hOffMap], by simp [mapGet, hOffMap]⟩)
    (by
      intro u hu
      simp only [defenseUnitNames, List.mem_cons, List.not_mem_nil, or_false] at hu
      rcases hu with rfl | rfl | rfl | rfl | rfl <;>
        exact ⟨by simp [mapGet, hDefMap], by simp [mapGet, hDefMap]⟩)
  exact ⟨h.1, (h.2.2.2 (Or.inl one_pos)).1⟩

/-! C10. -/

theorem sackVal_of_valid (p : PlayRecord)
    (h : p.sack = none ∨ p.sack = some 0 ∨ p.sack = some 1) :
    sackVal p = 0 ∨ sackVal p = 1 := by
  rcases h with h | h | h
  · left
    norm_num [sackVal, ratTrunc, h]
  · left
    norm_num [sackVal, ratTrunc, h]
  · right
    norm_num [sackVal, ratTrunc, h]

theorem sacks_bounds (l : List PlayRecord)
    (h : ∀ p ∈ l, sackVal p = 0 ∨ sackVal p = 1) :
    0 ≤ sacks l ∧ sacks l ≤ (l.length : Int) := by
  induction l with
  | nil => simp [sacks]
  | cons p rest ih =>
    have hp := h p (List.mem_cons_self p rest)
    have hr := ih (fun x hx => h x (List.mem_cons_of_mem _ hx))
    simp only [sacks, List.map_cons, List.sum_cons, List.length_cons] at *
    push_cast
    rcases hp with h0 | h1 <;> omega

theorem stuffed_cases (p : PlayRecord) : stuffed p = 0 ∨ stuffed p = 1 := by
  by_cases h : p.yards_gained ≤ 0 <;> simp [stuffed, h]

theorem stuffs_bounds (l : List PlayRecord) :
    0 ≤ stuffs l ∧ stuffs l ≤ (l.length : Int) := by
  induction l with
  | nil => simp [stuffs]
  | cons p rest ih =>
    have hp := stuffed_cases p
    simp only [stuffs, List.map_cons, List.sum_cons, List.length_cons] at *
    push_cast
    rcases hp with h0 | h1 <;> omega

theorem ratio_unit_interval (S : Int) (n : Nat) (h0 : 0 ≤ S) (h1 : S ≤ (n : Int)) :
    0 ≤ (S : ℚ) / ((max n 1 : Nat) : ℚ) ∧ (S : ℚ) / ((max n 1 : Nat) : ℚ) ≤ 1 := by
  have hpos : (0 : ℚ) < ((max n 1 : Nat) : ℚ) := by
    have : 1 ≤ max n 1 := le_max_right n 1
    exact_mod_cast Nat.lt_of_lt_of_le Nat.zero_lt_one this
  constructor
  · exact div_nonneg (by exact_mod_cast h0) hpos.le
  · rw [div_le_one hpos]
    have hn : (S : ℚ) ≤ (n : ℚ) := by exact_mod_cast h1
    have hm : ((n : ℕ) : ℚ) ≤ ((max n 1 : Nat) : ℚ) := by
      exact_mod_cast le_max_left n 1
    linarith

theorem pressureRateProxy_bounds (l : List PlayRecord)
    (h : ∀ p ∈ l, sackVal p = 0 ∨ sackVal p = 1) :
    0 ≤ pressureRateProxy l ∧ pressureRateProxy l ≤ 1 := by
  obtain ⟨h0, h1⟩ := sacks_bounds l h
  exact ratio_unit_interval (sacks l) l.length h0 h1

theorem passBlockWinProxy_bounds (l : List PlayRecord)
    (h : ∀ p ∈ l, sackVal p = 0 ∨ sackVal p = 1) :
    0 ≤ passBlockWinProxy l ∧ passBlockWinProxy l ≤ 1 := by
  obtain ⟨h0, h1⟩ := pressureRateProxy_bounds l h
  rw [passBlockWinProxy]
  rw [pressureRateProxy] at h0 h1
  constructor <;> [linarith; linarith]

theorem runStopWinProxy_bounds (l : List PlayRecord) :
    0 ≤ runStopWinProxy l ∧ runStopWinProxy l ≤ 1 := by
  obtain ⟨h0, h1⟩ := stuffs_bounds l
  exact ratio_unit_interval (stuffs l) l.length h0 h1

theorem runBlockWinProxy_bounds (l : List PlayRecord) :
    0 ≤ runBlockWinProxy l ∧ runBlockWinProxy l ≤ 1 := by
  obtain ⟨h0, h1⟩ := runStopWinProxy_bounds l
  rw [runBlockWinProxy]
  rw [runStopWinProxy] at h0 h1
  constructor <;> [linarith; linarith]

theorem mem_pbp_of_mem_filteredPlays (pbp : List PlayRecord) (season week : Int)
    (p : PlayRecord) (h : p ∈ filteredPlays pbp season week) : p ∈ pbp :=
  (List.mem_filter.mp h).1

theorem mem_of_mem_passPlays (df : List PlayRecord) (p : PlayRecord)
    (h : p ∈ passPlays df) : p ∈ df :=
  (List.mem_filter.mp h).1

theorem mem_of_mem_runPlays (df : List PlayRecord) (p : PlayRecord)
    (h : p ∈ runPlays df) : p ∈ df :=
  (List.mem_filter.mp h).1

theorem mem_of_mem_teamOffPlays (df : List PlayRecord) (t : String) (p : PlayRecord)
    (h : p ∈ teamOffPlays df t) : p ∈ df :=
  (List.mem_filter.mp h).1

theorem mem_of_mem_teamDefPlays (df : List PlayRecord) (t : String) (p : PlayRecord)
    (h : p ∈ teamDefPlays df t) : p ∈ df :=
  (List.mem_filter.mp h).1

/-- C10: under 0/1-valued (or absent) sack indicators, every raw proxy in
the tables built by `compute_team_unit_metrics` — pass-block-win,
run-block-win, pressure-rate and run-stop-win — lies in [0, 1]. -/
theorem C10_proxy_bounds (pbp : List PlayRecord) (season week : Int)
    (hs : ∀ p ∈ pbp, p.sack = none ∨ p.sack = some 0 ∨ p.sack = some 1) :
    (∀ r ∈ (compute_team_unit_metrics pbp season week).1,
        (∀ x, r.pass_block_win = some x → 0 ≤ x ∧ x ≤ 1)
        ∧ (∀ x, r.run_block_win = some x → 0 ≤ x ∧ x ≤ 1))
    ∧ (∀ r ∈ (compute_team_unit_metrics pbp season week).2,
        (∀ x, r.pressure_rate = some x → 0 ≤ x ∧ x ≤ 1)
        ∧ (∀ x, r.run_stop_win = some x → 0 ≤ x ∧ x ≤ 1)) := by
  have hsub : ∀ (l : List PlayRecord), (∀ p ∈ l, p ∈ pbp) →
      ∀ p ∈ l, sackVal p = 0 ∨ sackVal p = 1 :=
    fun l hl p hp => sackVal_of_valid p (hs p (hl p hp))
  constructor
  · intro r hr
    simp only [compute_team_unit_metrics, offenseUnits, List.mem_append, List.mem_flatten,
      List.mem_map] at hr
    rcases hr with ⟨l, ⟨t, ht, rfl⟩, hrl⟩ | ⟨t, ht, rfl⟩
    · simp only [List.mem_cons, List.not_mem_nil, or_false] at hrl
      rcases hrl with rfl | rfl | rfl | rfl <;>
        exact ⟨fun x hx => by simp [skillRow] at hx, fun x hx => by simp [skillRow] at hx⟩
    · constructor
      · intro x hx
        by_cases hmemb : t ∈ olPassTeams (filteredPlays pbp season week)
        · rw [show (⟨t, "OL", none, none, none,
              teamPassBlock (filteredPlays pbp season week) t,
              teamRunBlock (filteredPlays pbp season week) t⟩ : OffRow).pass_block_win =
              teamPassBlock (filteredPlays pbp season week) t from rfl,
            teamPassBlock, if_pos hmemb] at hx
          obtain rfl := (Option.some.inj hx).symm
          exact passBlockWinProxy_bounds _ (hsub _ (fun p hp =>
            mem_pbp_of_mem_filteredPlays pbp season week p
              (mem_of_mem_passPlays _ p (mem_of_mem_teamOffPlays _ _ p hp))))
        · rw [show (⟨t, "OL", none, none, none,
              teamPassBlock (filteredPlays pbp season week) t,
              teamRunBlock (filteredPlays pbp season week) t⟩ : OffRow).pass_block_win =
              teamPassBlock (filteredPlays pbp season week) t from rfl,
            teamPassBlock, if_neg hmemb] at hx
          cases hx
      · intro x hx
        by_cases hmemb : t ∈ olRunTeams (filteredPlays pbp season week)
        · rw [show (⟨t, "OL", none, none, none,
              teamPassBlock (filteredPlays pbp season week) t,
              teamRunBlock (filteredPlays pbp season week) t⟩ : OffRow).run_block_win =
              teamRunBlock (filteredPlays pbp season week) t from rfl,
            teamRunBlock, if_pos hmemb] at hx
          obtain rfl := (Option.some.inj hx).symm
          exact runBlockWinProxy_bounds _
        · rw [show (⟨t, "OL", none, none, none,
              teamPassBlock (filteredPlays pbp season week) t,
              teamRunBlock (filteredPlays pbp season week) t⟩ : OffRow).run_block_win =
              teamRunBlock (filteredPlays pbp season week) t from rfl,
            teamRunBlock, if_neg hmemb] at hx
          cases hx
  · intro r hr
    simp only [compute_team_unit_metrics, defenseUnits, List.mem_flatten,
      List.mem_map] at hr
    obtain ⟨l, ⟨t, ht, rfl⟩, hrl⟩ := hr
    simp only [List.mem_cons, List.not_mem_nil, or_false] at hrl
    have hpressure : ∀ x, teamPressure (filteredPlays pbp season week) t = some x →
        0 ≤ x ∧ x ≤ 1 := by
      intro x hx
      by_cases hmemb : t ∈ defPassTeams (filteredPlays pbp season week)
      · rw [teamPressure, if_pos hmemb] at hx
        obtain rfl := (Option.some.inj hx).symm
        exact pressureRateProxy_bounds _ (hsub _ (fun p hp =>
          mem_pbp_of_mem_filteredPlays pbp season week p
            (mem_of_mem_passPlays _ p (mem_of_mem_teamDefPlays _ _ p hp))))
      · rw [teamPressure, if_neg hmemb] at hx
        cases hx
    have hrunstop : ∀ x, teamRunStop (filteredPlays pbp season week) t = some x →
        0 ≤ x ∧ x ≤ 1 := by
      intro x hx
      by_cases hmemb : t ∈ defRunTeams (filteredPlays pbp season week)
      · rw [teamRunStop, if_pos hmemb] at hx
        obtain rfl := (Option.some.inj hx).symm
        exact runStopWinProxy_bounds _
      · rw [teamRunStop, if_neg hmemb] at hx
        cases hx
    rcases hrl with rfl | rfl | rfl | rfl | rfl
    · exact ⟨hpressure, fun x hx => by simp at hx⟩
    · exact ⟨fun x hx => by simp at hx, hrunstop⟩
    · exact ⟨fun x hx => by simp at hx, fun x hx => by simp at hx⟩
    · exact ⟨fun x hx => by simp at hx, fun x hx => by simp at hx⟩
    · exact ⟨fun x hx => by simp at hx, hrunstop⟩

/-- C10 witness: the proxies of the example log's teams lie in [0, 1]. -/
theorem C10_proxy_bounds_witness :
    0 ≤ passBlockWinProxy (teamOffPlays (passPlays (filteredPlays exPbp 2025 3)) "KC")
    ∧ passBlockWinProxy (teamOffPlays (passPlays (filteredPlays exPbp 2025 3)) "KC") ≤ 1 := by
  have h := C10_proxy_bounds exPbp 2025 3 (by decide)
  have hrow : (⟨"KC", "OL", none, none, none,
      teamPassBlock (filteredPlays exPbp 2025 3) "KC",
      teamRunBlock (filteredPlays exPbp 2025 3) "KC"⟩ : OffRow) ∈
      (compute_team_unit_metrics exPbp 2025 3).1 := by
    simp only [compute_team_unit_metrics, offenseUnits, List.mem_append, List.mem_flatten,
      List.mem_map]
    right
    exact ⟨"KC", by decide, rfl⟩
  have hpb : teamPassBlock (filteredPlays exPbp 2025 3) "KC" =
      some (passBlockWinProxy (teamOffPlays (passPlays (filteredPlays exPbp 2025 3)) "KC")) := by
    rw [teamPassBlock, if_pos (by decide)]
  exact (h.1 _ hrow).1 _ hpb

/-! C2. -/

theorem keepPlay_iff_spec (season week : Int) (p : PlayRecord) :
    keepPlay season week p = true ↔ keepPlaySpec season week p := by
  simp [keepPlay, keepPlaySpec, Bool.and_eq_true, Bool.or_eq_true, beq_iff_eq,
    decide_eq_true_eq, Option.isSome_iff_ne_none, and_assoc]

theorem success_eq_one_iff (p : PlayRecord) (e : ℚ) (he : p.epa = some e) :
    (success p = 1 ↔ 0 < e) ∧ (success p = 0 ↔ e ≤ 0) := by
  rw [success, he]
  simp only [Option.getD_some]
  constructor
  · split_ifs with hh <;> simp [hh]
  · split_ifs with hh
    · simp [not_le.mpr hh]
    · simp [not_lt.mp hh]

theorem explosive_eq_one_iff (p : PlayRecord) :
    explosive p = 1 ↔ explosiveSpec p := by
  by_cases hp : p.play_type = "pass"
  · have hr : ¬ p.play_type = "run" := by
      rw [hp]
      decide
    rcases hair : p.air_yards with _ | av
    · simp [explosive, explosiveSpec, airGe20, hair, hp, hr]
    · by_cases hav : (20 : ℚ) ≤ av
      · simp [explosive, explosiveSpec, airGe20, hair, hp, hr, hav]
      · simp [explosive, explosiveSpec, airGe20, hair, hp, hr, hav]
  · by_cases hr : p.play_type = "run"
    · by_cases hyg : (12 : ℚ) ≤ p.yards_gained
      · simp [explosive, explosiveSpec, hp, hr, hyg]
      · simp [explosive, explosiveSpec, hp, hr, hyg]
    · simp [explosive, explosiveSpec, hp, hr]

theorem explosive_eq_zero_iff (p : PlayRecord) :
    explosive p = 0 ↔ ¬ explosiveSpec p := by
  rw [← explosive_eq_one_iff p, explosive]
  split_ifs <;> norm_num

theorem stuffed_eq_one_iff (p : PlayRecord) :
    stuffed p = 1 ↔ p.yards_gained ≤ 0 := by
  rw [stuffed]
  split_ifs with h <;> simp [h]

theorem sackVal_none (p : PlayRecord) (h : p.sack = none) : sackVal p = 0 := by
  norm_num [sackVal, ratTrunc, h]

theorem sacks_cast_eq_sackSum (l : List PlayRecord)
    (h : ∀ p ∈ l, p.sack = none ∨ p.sack = some 0 ∨ p.sack = some 1) :
    (sacks l : ℚ) = (l.map (fun p => p.sack.getD 0)).sum := by
  induction l with
  | nil => simp [sacks]
  | cons p rest ih =>
    have hp := h p (List.mem_cons_self p rest)
    have hr := ih (fun x hx => h x (List.mem_cons_of_mem _ hx))
    simp only [sacks, List.map_cons, List.sum_cons] at *
    push_cast
    rw [← hr]
    rcases hp with h0 | h0 | h0 <;> norm_num [sackVal, ratTrunc, h0]

theorem stuffs_cast_eq_stuffCount (l : List PlayRecord) :
    (stuffs l : ℚ) =
      (((l.filter (fun p => decide (p.yards_gained ≤ 0))).length : Nat) : ℚ) := by
  induction l with
  | nil => simp [stuffs]
  | cons p rest ih =>
    by_cases h : p.yards_gained ≤ 0
    · simp only [stuffs, List.map_cons, List.sum_cons, List.filter_cons,
        decide_eq_true_eq, if_pos h, stuffed, List.length_cons] at *
      push_cast
      rw [← ih]
      push_cast
      ring
    · simp only [stuffs, List.map_cons, List.sum_cons, List.filter_cons,
        decide_eq_true_eq, if_neg h, stuffed, List.length_cons] at *
      push_cast
      rw [← ih]
      simp

theorem mem_olPassTeams_iff (df : List PlayRecord) (t : String) :
    t ∈ olPassTeams df ↔ teamOffPlays (passPlays df) t ≠ [] := by
  rw [olPassTeams, offTeams, groupKeys, List.mem_dedup, List.mem_map, teamOffPlays,
    ne_eq, List.filter_eq_nil_iff]
  push_neg
  simp only [beq_iff_eq]

theorem mem_olRunTeams_iff (df : List PlayRecord) (t : String) :
    t ∈ olRunTeams df ↔ teamOffPlays (runPlays df) t ≠ [] := by
  rw [olRunTeams, offTeams, groupKeys, List.mem_dedup, List.mem_map, teamOffPlays,
    ne_eq, List.filter_eq_nil_iff]
  push_neg
  simp only [beq_iff_eq]

/-- C2: the aggregation keeps exactly the rows with the target season,
week ≤ cutoff, REG season-type, pass/run play-type and a present epa;
success holds exactly when epa > 0; explosive holds exactly on a
≥20-air-yard pass (absent air-yards failing the pass branch) or a
≥12-yard run; stuffed holds exactly when yards-gained ≤ 0; and every OL
row of the offense table carries pass-block-win = 1 − sacks/max(attempts,1)
(sack absent counted as 0) and run-block-win = 1 − stuffed/max(runs,1)
over that team's filtered pass/run plays, absent when the team has no
such play. -/
theorem C2_aggregation_semantics (pbp : List PlayRecord) (season week : Int)
    (hs : ∀ p ∈ pbp, p.sack = none ∨ p.sack = some 0 ∨ p.sack = some 1) :
    (∀ p, p ∈ filteredPlays pbp season week ↔ p ∈ pbp ∧ keepPlaySpec season week p)
    ∧ (∀ p e, p.epa = some e → (success p = 1 ↔ 0 < e) ∧ (success p = 0 ↔ e ≤ 0))
    ∧ (∀ p, explosive p = 1 ↔ explosiveSpec p)
    ∧ (∀ p, explosive p = 0 ↔ ¬ explosiveSpec p)
    ∧ (∀ p, stuffed p = 1 ↔ p.yards_gained ≤ 0)
    ∧ (∀ p, p.sack = none → sackVal p = 0)
    ∧ (∀ r, r ∈ (compute_team_unit_metrics pbp season week).1 → r.unit = "OL" →
        r.pass_block_win =
          (if passAttemptCount pbp season week r.team = 0 then none
           else some (1 - sackSum pbp season week r.team /
              ((max (passAttemptCount pbp season week r.team) 1 : Nat) : ℚ)))
        ∧ r.run_block_win =
          (if runCount pbp season week r.team = 0 then none
           else some (1 - (stuffCount pbp season week r.team : ℚ) /
              ((max (runCount pbp season week r.team) 1 : Nat) : ℚ)))) := by
  refine ⟨?_, success_eq_one_iff, explosive_eq_one_iff, explosive_eq_zero_iff,
    stuffed_eq_one_iff, sackVal_none, ?_⟩
  · intro p
    rw [filteredPlays, List.mem_filter, keepPlay_iff_spec]
  · intro r hr hOL
    simp only [compute_team_unit_metrics, offenseUnits, List.mem_append, List.mem_flatten,
      List.mem_map] at hr
    rcases hr with ⟨l, ⟨t, ht, rfl⟩, hrl⟩ | ⟨t, ht, rfl⟩
    · exfalso
      simp only [List.mem_cons, List.not_mem_nil, or_false] at hrl
      rcases hrl with rfl | rfl | rfl | rfl <;> simp [skillRow] at hOL
    · have hteam : (⟨t, "OL", none, none, none,
          teamPassBlock (filteredPlays pbp season week) t,
          teamRunBlock (filteredPlays pbp season week) t⟩ : OffRow).team = t := rfl
      rw [hteam]
      constructor
      · show teamPassBlock (filteredPlays pbp season week) t = _
        by_cases hmemb : t ∈ olPassTeams (filteredPlays pbp season week)
        · rw [teamPassBlock, if_pos hmemb]
          have hne : teamOffPlays (passPlays (filteredPlays pbp season week)) t ≠ [] :=
            (mem_olPassTeams_iff _ t).mp hmemb
          have hcnt : passAttemptCount pbp season week t ≠ 0 :=
            fun h0 => hne (List.length_eq_zero.mp h0)
          rw [if_neg hcnt, passBlockWinProxy]
          have hsackeq : (sacks (teamOffPlays (passPlays (filteredPlays pbp season week)) t) : ℚ) =
              sackSum pbp season week t := by
            rw [sackSum, teamPassPlaysOf]
            exact sacks_cast_eq_sackSum _ (fun p hp => hs p
              (mem_pbp_of_mem_filteredPlays pbp season week p
                (mem_of_mem_passPlays _ p (mem_of_mem_teamOffPlays _ _ p hp))))
          rw [hsackeq]
          rfl
        · rw [teamPassBlock, if_neg hmemb]
          have hcnt : passAttemptCount pbp season week t = 0 := by
            have hnil : teamOffPlays (passPlays (filteredPlays pbp season week)) t = [] := by
              by_contra hne2
              exact hmemb ((mem_olPassTeams_iff _ t).mpr hne2)
            exact List.length_eq_zero.mpr hnil
          rw [if_pos hcnt]
      · show teamRunBlock (filteredPlays pbp season week) t = _
        by_cases hmemb : t ∈ olRunTeams (filteredPlays pbp season week)
        · rw [teamRunBlock, if_pos hmemb]
          have hne : teamOffPlays (runPlays (filteredPlays pbp season week)) t ≠ [] :=
            (mem_olRunTeams_iff _ t).mp hmemb
          have hcnt : runCount pbp season week t ≠ 0 :=
            fun h0 => hne (List.length_eq_zero.mp h0)
          rw [if_neg hcnt, runBlockWinProxy]
          have hstuffeq : (stuffs (teamOffPlays (runPlays (filteredPlays pbp season week)) t) : ℚ) =
              (stuffCount pbp season week t : ℚ) := by
            rw [stuffCount, teamRunPlaysOf]
            exact stuffs_cast_eq_stuffCount _
          rw [hstuffeq]
          rfl
        · rw [teamRunBlock, if_neg hmemb]
          have hcnt : runCount pbp season week t = 0 := by
            have hnil : teamOffPlays (runPlays (filteredPlays pbp season week)) t = [] := by
              by_contra hne2
              exact hmemb ((mem_olRunTeams_iff _ t).mpr hne2)
            exact List.length_eq_zero.mpr hnil
          rw [if_pos hcnt]

/-- C2 witness: on the example log the REG pass play passes the filter,
the 25-air-yard pass is explosive, the zero-yard run is stuffed, and the
KC OL row carries the claimed proxies. -/
theorem C2_aggregation_semantics_witness :
    pPass ∈ filteredPlays exPbp 2025 3
    ∧ explosive pPass = 1
    ∧ stuffed pRun = 1 := by
  have h := C2_aggregation_semantics exPbp 2025 3 (by decide)
  refine ⟨(h.1 pPass).mpr ⟨by decide, ?_⟩, (h.2.2.1 pPass).mpr ?_, (h.2.2.2.2.1 pRun).mpr ?_⟩
  · refine ⟨rfl, by decide, rfl, Or.inl rfl, by decide⟩
  · exact Or.inl ⟨rfl, 25, rfl, by norm_num⟩
  · norm_num [pRun]

end NFL
